import Mathlib

/-!
# Verification of the vk-captcha-solver core algorithms

Shallow embedding of the core algorithmic components of the
`vk_captcha_solver` Python package, together with theorems settling the
specification claims about them.

Embedding conventions:
* Python machine-free integers are `Nat`/`Int` as appropriate.
* External libraries (hashlib, PIL, numpy, aiohttp, random) are modelled as
  abstract function parameters: the SHA-256 digest becomes an abstract
  `digest : String → String`, the image-render-and-score composition of
  `apply_tile_permutation` and `calculate_seam_score` over a fixed decoded
  image becomes an abstract `score : List Nat → Nat`, and the
  jitter/easing point construction of `generate_mouse_trace` becomes an
  abstract `mkPoint : Nat → ISensorPoint`.
* Unbounded Python loops (`while True` in `_generate_pow`) are given an
  explicit fuel parameter; `none` means the loop has not returned within
  the allotted fuel, `some` is the value the Python loop returns.
-/

namespace VKCaptcha

/-! ## HashSearch: `CaptchaSolver._generate_pow` (`__init__.py` lines 244-254)

```python
def _generate_pow(self, input_str: str, difficulty: int) -> str:
    target_prefix = "0" * difficulty
    nonce = 0
    while True:
        nonce += 1
        data = f"{input_str}{nonce}".encode()
        hash_val = hashlib.sha256(data).hexdigest()
        if hash_val.startswith(target_prefix):
            return hash_val
```

`hashlib.sha256(...).hexdigest()` is abstracted as `digest : String → String`.
Python's `str.startswith` is character-list prefix testing, modelled with
`List.isPrefixOf` over `String.data`.  The Python function returns only the
hex digest; the embedding also exposes the nonce at which the loop returned,
so that the claims about the found nonce are statable. -/

/-- `"0" * difficulty`: the target of `d` leading zero characters. -/
def targetZeros (d : Nat) : List Char := List.replicate d '0'

/-- The loop body of `_generate_pow`, with explicit fuel.  `nonce` is the
value of the Python `nonce` variable before the `nonce += 1` at the top of
the iteration. -/
def generate_pow_aux (digest : String → String) (input : String) (d : Nat) :
    Nat → Nat → Option (String × Nat)
  | 0, _ => none
  | fuel + 1, nonce =>
    let n := nonce + 1
    let hashVal := digest (input ++ toString n)
    if (targetZeros d).isPrefixOf hashVal.data then some (hashVal, n)
    else generate_pow_aux digest input d fuel n

/-- `CaptchaSolver._generate_pow`, starting from `nonce = 0` as in the code. -/
def generate_pow (digest : String → String) (input : String) (d fuel : Nat) :
    Option (String × Nat) :=
  generate_pow_aux digest input d fuel 0

theorem generate_pow_aux_spec (digest : String → String) (input : String) (d : Nat) :
    ∀ fuel start h n, generate_pow_aux digest input d fuel start = some (h, n) →
      start < n ∧ h = digest (input ++ toString n) ∧
      (targetZeros d).isPrefixOf (digest (input ++ toString n)).data = true ∧
      ∀ m, start < m → m < n →
        (targetZeros d).isPrefixOf (digest (input ++ toString m)).data = false := by
  intro fuel
  induction fuel with
  | zero => intro start h n hrun; simp [generate_pow_aux] at hrun
  | succ fuel ih =>
    intro start h n hrun
    simp only [generate_pow_aux] at hrun
    by_cases hpre : (targetZeros d).isPrefixOf (digest (input ++ toString (start + 1))).data = true
    · rw [if_pos hpre] at hrun
      have hpair := Option.some.inj hrun
      have hh : digest (input ++ toString (start + 1)) = h := congrArg Prod.fst hpair
      have hn : start + 1 = n := congrArg Prod.snd hpair
      subst hn
      subst hh
      exact ⟨Nat.lt_succ_self start, rfl, hpre, by intro m hm1 hm2; omega⟩
    · rw [if_neg hpre] at hrun
      obtain ⟨h1, h2, h3, h4⟩ := ih (start + 1) h n hrun
      refine ⟨by omega, h2, h3, ?_⟩
      intro m hm1 hm2
      rcases Nat.eq_or_lt_of_le (Nat.succ_le_of_lt hm1) with heq | hlt
      · rw [← heq]; exact Bool.not_eq_true _ ▸ hpre
      · exact h4 m hlt hm2

/-- C1: whenever the proof-of-work loop returns, it returns the digest of
`input ++ decimal(nonce)` for the smallest nonce `≥ 1` whose digest has at
least `d` leading `'0'` characters, and for `d = 0` that nonce is `1`. -/
theorem generate_pow_correct (digest : String → String) (input : String) (d fuel : Nat)
    (h : String) (n : Nat) (hrun : generate_pow digest input d fuel = some (h, n)) :
    1 ≤ n ∧ h = digest (input ++ toString n) ∧
    (targetZeros d).isPrefixOf h.data = true ∧
    (∀ m, 1 ≤ m → m < n →
      (targetZeros d).isPrefixOf (digest (input ++ toString m)).data = false) ∧
    (d = 0 → n = 1) := by
  obtain ⟨h1, h2, h3, h4⟩ := generate_pow_aux_spec digest input d fuel 0 h n hrun
  refine ⟨h1, h2, h2 ▸ h3, fun m hm1 hm2 => h4 m hm1 hm2, ?_⟩
  intro hd0
  by_contra hne
  have h1lt : 1 < n := by omega
  have := h4 1 (by omega) h1lt
  rw [hd0] at this
  simp [targetZeros] at this

/-- Witness for C1 at concrete inputs: with the identity as digest, seed
`"a"` and difficulty `0`, the search accepts the first candidate
`nonce = 1` and returns hash `"a1"`. -/
theorem generate_pow_correct_witness :
    generate_pow (fun s => s) "a" 0 1 = some ("a1", 1) ∧
    1 ≤ 1 ∧ "a1" = (fun s : String => s) ("a" ++ toString 1) := by
  refine ⟨by rfl, ?_, ?_⟩
  · exact (generate_pow_correct (fun s => s) "a" 0 1 "a1" 1 (by rfl)).1
  · exact (generate_pow_correct (fun s => s) "a" 0 1 "a1" 1 (by rfl)).2.1

/-! ## SliderSolver: `slider_solver.py`

`SliderCaptchaSolver.find_optimal_step_count` (lines 154-202) replays the
swap sequence and scores each resulting permutation.  The composition
`calculate_seam_score (apply_tile_permutation original_image tile_layout
perm width height extension) tile_count` is a pure function of the current
permutation once the decoded image is fixed; it is abstracted as
`score : List Nat → Nat` (the seam score is a non-negative integer, being a
sum of absolute pixel differences).  The loop state mirrors the local
variables `current_permutation`, `best_score` (`none` models the initial
`float('inf')`), `best_step` and `best_swaps`; the extra `trace` field
records the `(current_permutation, score)` pair computed by lines 186-195
at each executed iteration (the code computes these values without storing
them), so that theorems can speak about every step's permutation and
score.  The returned result never depends on `trace`. -/

structure SliderState where
  perm : List Nat
  bestScore : Option Nat
  bestStep : Nat
  bestSwaps : List Int
  trace : List (List Nat × Nat)

/-- `score < best_score` where `best_score` may still be `float('inf')`. -/
def ltInf (s : Nat) : Option Nat → Bool
  | none => true
  | some b => s < b

/-- `0 <= a < len(current_permutation) and 0 <= b < len(current_permutation)`
(line 183). -/
def inRangeSwap (perm : List Nat) (a b : Int) : Bool :=
  decide (0 ≤ a) && decide (a < (perm.length : Int)) &&
  decide (0 ≤ b) && decide (b < (perm.length : Int))

/-- Line 184: `current_permutation[a], current_permutation[b] =
current_permutation[b], current_permutation[a]`, guarded by the range check;
out-of-range pairs leave the permutation unchanged. -/
def applySwapPair (perm : List Nat) (a b : Int) : List Nat :=
  if inRangeSwap perm a b then
    (perm.set a.toNat (perm.getD b.toNat 0)).set b.toNat (perm.getD a.toNat 0)
  else perm

/-- One iteration of the `for step in range(max_steps)` body (lines 180-200),
after the break check has passed. -/
def sliderStep (score : List Nat → Nat) (seq : List Int) (step : Nat)
    (st : SliderState) : SliderState :=
  let a := seq.getD (2 * step) 0
  let b := seq.getD (2 * step + 1) 0
  let perm := applySwapPair st.perm a b
  let s := score perm
  let st1 : SliderState := { st with perm := perm, trace := st.trace ++ [(perm, s)] }
  if ltInf s st1.bestScore then
    { st1 with bestScore := some s, bestStep := step + 1,
               bestSwaps := seq.take ((step + 1) * 2) }
  else st1

/-- The loop of lines 175-200: `fuel` is the number of remaining iterations
of `range(max_steps)`, `step` the current index; the loop breaks when
`swap_index + 1 >= len(swap_sequence)`. -/
def findOptimalAux (score : List Nat → Nat) (seq : List Int) :
    Nat → Nat → SliderState → SliderState
  | 0, _, st => st
  | fuel + 1, step, st =>
    if 2 * step + 1 < seq.length then
      findOptimalAux score seq fuel (step + 1) (sliderStep score seq step st)
    else st

/-- Lines 166-169: identity permutation, `best_score = inf`, `best_step = 0`,
`best_swaps = []`. -/
def initSliderState (tile_count : Nat) : SliderState :=
  { perm := List.range (tile_count * tile_count), bestScore := none,
    bestStep := 0, bestSwaps := [], trace := [] }

/-- `SliderCaptchaSolver.find_optimal_step_count` (result pair only). -/
def find_optimal_step_count (score : List Nat → Nat) (seq : List Int)
    (max_steps tile_count : Nat) : Nat × List Int :=
  let st := findOptimalAux score seq max_steps 0 (initSliderState tile_count)
  (st.bestStep, st.bestSwaps)

def DEFAULT_TILE_COUNT : Nat := 5
def DEFAULT_MAX_STEPS : Nat := 50

/-- The argument of `SliderCaptchaSolver.solve`: `content.get('image')` and
`content.get('steps')` may be absent (`none`), and `content['extension']`. -/
structure ICaptchaContentM where
  image : Option String
  steps : Option (List Int)
  extension : String

/-- The dict returned by `SliderCaptchaSolver.solve`. -/
structure SliderResult where
  stepCount : Nat
  selectedSwaps : List Int
deriving DecidableEq

/-- `SliderCaptchaSolver.solve` (lines 14-38).  The guard models line 18:
`not base64_image or not isinstance(raw_steps, list) or len(raw_steps) == 0`;
line 22 discards the first step.  The base64/PIL image decoding is external;
`score` stands for the per-permutation render-and-score pipeline obtained
from the decoded image (see above). -/
def SliderCaptchaSolver.solve (score : List Nat → Nat)
    (content : ICaptchaContentM) : SliderResult :=
  if content.image = none ∨ content.image = some "" ∨
     content.steps = none ∨ content.steps = some [] then
    { stepCount := 0, selectedSwaps := [] }
  else
    let raw_steps := content.steps.getD []
    let steps_for_processing := raw_steps.drop 1
    let r := find_optimal_step_count score steps_for_processing
               DEFAULT_MAX_STEPS DEFAULT_TILE_COUNT
    { stepCount := r.1, selectedSwaps := r.2 }

/-- C5: a missing image, an empty image, a missing swap sequence or an empty
swap sequence makes `solve` return the degenerate zero-step result at once. -/
theorem slider_solve_degenerate (score : List Nat → Nat) (content : ICaptchaContentM)
    (h : content.image = none ∨ content.image = some "" ∨
         content.steps = none ∨ content.steps = some []) :
    SliderCaptchaSolver.solve score content = { stepCount := 0, selectedSwaps := [] } := by
  unfold SliderCaptchaSolver.solve
  rw [if_pos h]

/-- Witness for C5: no image supplied, non-empty steps. -/
theorem slider_solve_degenerate_witness :
    SliderCaptchaSolver.solve (fun _ => 0)
      { image := none, steps := some [1, 2], extension := "png" }
      = { stepCount := 0, selectedSwaps := [] } :=
  slider_solve_degenerate (fun _ => 0)
    { image := none, steps := some [1, 2], extension := "png" } (Or.inl rfl)

theorem sliderStep_cases (score : List Nat → Nat) (seq : List Int) (step : Nat)
    (st : SliderState) :
    ((sliderStep score seq step st).bestStep = step + 1 ∧
     (sliderStep score seq step st).bestSwaps = seq.take ((step + 1) * 2)) ∨
    ((sliderStep score seq step st).bestStep = st.bestStep ∧
     (sliderStep score seq step st).bestSwaps = st.bestSwaps ∧
     (sliderStep score seq step st).bestScore = st.bestScore) := by
  unfold sliderStep
  dsimp only
  split
  · left; exact ⟨rfl, rfl⟩
  · right; exact ⟨rfl, rfl, rfl⟩

theorem findOptimalAux_invariant (score : List Nat → Nat) (seq : List Int) :
    ∀ fuel step st, st.bestStep ≤ step → st.bestSwaps = seq.take (st.bestStep * 2) →
      st.bestStep * 2 ≤ seq.length →
      st.bestStep ≤ (findOptimalAux score seq fuel step st).bestStep ∧
      (findOptimalAux score seq fuel step st).bestStep ≤ step + fuel ∧
      (findOptimalAux score seq fuel step st).bestSwaps
        = seq.take ((findOptimalAux score seq fuel step st).bestStep * 2) ∧
      (findOptimalAux score seq fuel step st).bestStep * 2 ≤ seq.length := by
  intro fuel
  induction fuel with
  | zero =>
    intro step st h1 h2 h3
    simp only [findOptimalAux]
    exact ⟨Nat.le_refl _, by omega, h2, h3⟩
  | succ fuel ih =>
    intro step st h1 h2 h3
    simp only [findOptimalAux]
    by_cases hlen : 2 * step + 1 < seq.length
    · rw [if_pos hlen]
      have hmid : (sliderStep score seq step st).bestStep ≤ step + 1 ∧
          st.bestStep ≤ (sliderStep score seq step st).bestStep ∧
          (sliderStep score seq step st).bestSwaps
            = seq.take ((sliderStep score seq step st).bestStep * 2) ∧
          (sliderStep score seq step st).bestStep * 2 ≤ seq.length := by
        rcases sliderStep_cases score seq step st with ⟨ha, hb⟩ | ⟨ha, hb, _⟩
        · rw [ha, hb]; refine ⟨Nat.le_refl _, by omega, rfl, by omega⟩
        · rw [ha, hb]; exact ⟨by omega, Nat.le_refl _, h2, h3⟩
      obtain ⟨hm1, hm2, hm3, hm4⟩ := hmid
      obtain ⟨hi1, hi2, hi3, hi4⟩ := ih (step + 1) (sliderStep score seq step st) hm1 hm3 hm4
      exact ⟨Nat.le_trans hm2 hi1, by omega, hi3, hi4⟩
    · rw [if_neg hlen]
      exact ⟨Nat.le_refl _, by omega, h2, h3⟩

/-- C3: for a non-empty image and non-empty swap list, `solve` returns a
step count within the 50-step bound, a swap list of length exactly
`2 × stepCount`, and that swap list is exactly the prefix of that length of
the input swap sequence with its first element discarded. -/
theorem slider_solve_shape (score : List Nat → Nat) (img : String) (raw : List Int)
    (ext : String) (him : img ≠ "") (hst : raw ≠ []) :
    (SliderCaptchaSolver.solve score ⟨some img, some raw, ext⟩).stepCount ≤ 50 ∧
    (SliderCaptchaSolver.solve score ⟨some img, some raw, ext⟩).selectedSwaps.length
      = 2 * (SliderCaptchaSolver.solve score ⟨some img, some raw, ext⟩).stepCount ∧
    (SliderCaptchaSolver.solve score ⟨some img, some raw, ext⟩).selectedSwaps
      = (raw.drop 1).take
          (2 * (SliderCaptchaSolver.solve score ⟨some img, some raw, ext⟩).stepCount) := by
  have hguard : ¬((some img : Option String) = none ∨ (some img : Option String) = some "" ∨
      (some raw : Option (List Int)) = none ∨ (some raw : Option (List Int)) = some []) := by
    simp [him, hst]
  unfold SliderCaptchaSolver.solve
  rw [if_neg hguard]
  dsimp only
  obtain ⟨h1, h2, h3, h4⟩ := findOptimalAux_invariant score (raw.drop 1)
    DEFAULT_MAX_STEPS 0 (initSliderState DEFAULT_TILE_COUNT)
    (Nat.le_refl 0) (by simp [initSliderState]) (by simp [initSliderState])
  unfold find_optimal_step_count
  dsimp only
  simp only [Option.getD_some]
  refine ⟨by simpa [DEFAULT_MAX_STEPS] using h2, ?_, ?_⟩
  · rw [h3, List.length_take]
    omega
  · rw [h3, Nat.mul_comm]

/-- Witness for C3 at a concrete input. -/
theorem slider_solve_shape_witness :
    ("x" ≠ "") ∧ (([1, 2, 3] : List Int) ≠ []) ∧
    (SliderCaptchaSolver.solve (fun _ => 0) ⟨some "x", some [1, 2, 3], "png"⟩).stepCount ≤ 50 ∧
    (SliderCaptchaSolver.solve (fun _ => 0) ⟨some "x", some [1, 2, 3], "png"⟩).selectedSwaps.length
      = 2 * (SliderCaptchaSolver.solve (fun _ => 0) ⟨some "x", some [1, 2, 3], "png"⟩).stepCount := by
  refine ⟨by decide, by decide, ?_, ?_⟩
  · exact (slider_solve_shape (fun _ => 0) "x" [1, 2, 3] "png" (by decide) (by decide)).1
  · exact (slider_solve_shape (fun _ => 0) "x" [1, 2, 3] "png" (by decide) (by decide)).2.1

theorem count_set_balance (l : List Nat) :
    ∀ (i : Nat), i < l.length → ∀ (v x : Nat),
      (l.set i v).count x + (if l.getD i 0 = x then 1 else 0)
        = l.count x + (if v = x then 1 else 0) := by
  induction l with
  | nil => intro i hi; simp at hi
  | cons a t ih =>
    intro i hi v x
    cases i with
    | zero =>
      simp only [List.set_cons_zero, List.getD_cons_zero, List.count_cons, beq_iff_eq]
      split_ifs <;> omega
    | succ i =>
      simp only [List.set_cons_succ, List.getD_cons_succ, List.count_cons, beq_iff_eq]
      have hi' : i < t.length := by simpa using hi
      have := ih i hi' v x
      split_ifs at this ⊢ <;> omega

theorem getD_len_le (l : List Nat) (i : Nat) (h : l.length ≤ i) : l.getD i 0 = 0 := by
  rw [List.getD_eq_getElem?_getD, List.getElem?_eq_none h]
  rfl

theorem swap_set_perm (l : List Nat) (i j : Nat) (hi : i < l.length)
    (hj : j < l.length) :
    ((l.set i (l.getD j 0)).set j (l.getD i 0)).Perm l := by
  rw [List.perm_iff_count]
  intro x
  have hlen : j < (l.set i (l.getD j 0)).length := by simpa using hj
  have h1 := count_set_balance l i hi (l.getD j 0) x
  have h2 := count_set_balance (l.set i (l.getD j 0)) j hlen (l.getD i 0) x
  have hj' : (l.set i (l.getD j 0)).getD j 0 = l.getD j 0 := by
    rcases eq_or_ne i j with he | hne
    · subst he
      rw [List.getD_eq_getElem _ _ hlen, List.getElem_set_self]
    · rw [List.getD_eq_getElem _ _ hlen, List.getElem_set_ne hne]
      exact (List.getD_eq_getElem _ _ hj).symm
  rw [hj'] at h2
  split_ifs at h1 h2 ⊢ <;> omega

theorem applySwapPair_noop (perm : List Nat) (a b : Int)
    (h : inRangeSwap perm a b = false) : applySwapPair perm a b = perm := by
  unfold applySwapPair
  rw [h]
  simp

theorem sliderStep_perm_eq (score : List Nat → Nat) (seq : List Int) (step : Nat)
    (st : SliderState) :
    (sliderStep score seq step st).perm
      = applySwapPair st.perm (seq.getD (2 * step) 0) (seq.getD (2 * step + 1) 0) := by
  unfold sliderStep; dsimp only; split <;> rfl

theorem sliderStep_trace_eq (score : List Nat → Nat) (seq : List Int) (step : Nat)
    (st : SliderState) :
    (sliderStep score seq step st).trace = st.trace ++
      [(applySwapPair st.perm (seq.getD (2 * step) 0) (seq.getD (2 * step + 1) 0),
        score (applySwapPair st.perm (seq.getD (2 * step) 0) (seq.getD (2 * step + 1) 0)))] := by
  unfold sliderStep; dsimp only; split <;> rfl

theorem applySwapPair_perm (perm : List Nat) (a b : Int) :
    (applySwapPair perm a b).Perm perm := by
  unfold applySwapPair
  split
  · next hin =>
    have hrange : 0 ≤ a ∧ a < (perm.length : Int) ∧ 0 ≤ b ∧ b < (perm.length : Int) := by
      simpa [inRangeSwap, and_assoc] using hin
    exact swap_set_perm perm a.toNat b.toNat (by omega) (by omega)
  · exact List.Perm.refl _

theorem findOptimalAux_trace_perm (score : List Nat → Nat) (seq : List Int)
    (R : List Nat) :
    ∀ fuel step st, st.perm.Perm R → (∀ pr ∈ st.trace, pr.1.Perm R) →
      ∀ pr ∈ (findOptimalAux score seq fuel step st).trace, pr.1.Perm R := by
  intro fuel
  induction fuel with
  | zero => intro step st _ htr; simpa [findOptimalAux] using htr
  | succ fuel ih =>
    intro step st hperm htr
    simp only [findOptimalAux]
    split
    · apply ih (step + 1) (sliderStep score seq step st)
      · have hnew : (sliderStep score seq step st).perm
            = applySwapPair st.perm (seq.getD (2 * step) 0) (seq.getD (2 * step + 1) 0) := by
          unfold sliderStep; dsimp only; split <;> rfl
        rw [hnew]
        exact ((applySwapPair_perm st.perm _ _).trans hperm)
      · have hnewtr : (sliderStep score seq step st).trace = st.trace ++
            [(applySwapPair st.perm (seq.getD (2 * step) 0) (seq.getD (2 * step + 1) 0),
              score (applySwapPair st.perm (seq.getD (2 * step) 0)
                (seq.getD (2 * step + 1) 0)))] := by
          unfold sliderStep; dsimp only; split <;> rfl
        rw [hnewtr]
        intro pr hpr
        rcases List.mem_append.1 hpr with hl | hr
        · exact htr pr hl
        · have : pr.1 = applySwapPair st.perm (seq.getD (2 * step) 0)
              (seq.getD (2 * step + 1) 0) := by
            rcases List.mem_singleton.1 hr with h
            rw [h]
          rw [this]
          exact (applySwapPair_perm st.perm _ _).trans hperm
    · exact htr

/-- C6: the replay's permutation starts as the identity over `grid²`
positions; an in-range swap pair exchanges exactly the two addressed
positions (so each intermediate permutation remains a rearrangement of
`[0, grid²)`, each value occurring exactly once), an out-of-range pair is a
no-op, and every permutation scored during the run is a permutation of
`List.range (grid²)`. -/
theorem slider_permutation_invariant (score : List Nat → Nat) (seq : List Int)
    (max_steps tile_count : Nat) :
    (initSliderState tile_count).perm = List.range (tile_count * tile_count) ∧
    (∀ (perm : List Nat) (a b : Int), inRangeSwap perm a b = false →
      applySwapPair perm a b = perm) ∧
    (∀ (perm : List Nat) (a b : Int), inRangeSwap perm a b = true →
      (applySwapPair perm a b).length = perm.length ∧
      (applySwapPair perm a b).getD a.toNat 0 = perm.getD b.toNat 0 ∧
      (applySwapPair perm a b).getD b.toNat 0 = perm.getD a.toNat 0 ∧
      (∀ i, i ≠ a.toNat → i ≠ b.toNat →
        (applySwapPair perm a b).getD i 0 = perm.getD i 0) ∧
      (applySwapPair perm a b).Perm perm) ∧
    (∀ pr ∈ (findOptimalAux score seq max_steps 0 (initSliderState tile_count)).trace,
      pr.1.Perm (List.range (tile_count * tile_count))) := by
  refine ⟨rfl, ?_, ?_, ?_⟩
  · intro perm a b hout
    exact applySwapPair_noop perm a b hout
  · intro perm a b hin
    have hrange : 0 ≤ a ∧ a < (perm.length : Int) ∧ 0 ≤ b ∧ b < (perm.length : Int) := by
      simpa [inRangeSwap, and_assoc] using hin
    have ha : a.toNat < perm.length := by omega
    have hb : b.toNat < perm.length := by omega
    have hswap : applySwapPair perm a b
        = (perm.set a.toNat (perm.getD b.toNat 0)).set b.toNat (perm.getD a.toNat 0) := by
      unfold applySwapPair; rw [hin]; simp
    have hlen1 : ((perm.set a.toNat (perm.getD b.toNat 0)).set b.toNat
        (perm.getD a.toNat 0)).length = perm.length := by simp
    refine ⟨by rw [hswap]; exact hlen1, ?_, ?_, ?_, ?_⟩
    · rw [hswap]
      rcases eq_or_ne a.toNat b.toNat with he | hne
      · rw [he, List.getD_eq_getElem _ _ (by simpa using hb), List.getElem_set_self]
      · rw [List.getD_eq_getElem _ _ (by simpa using ha),
          List.getElem_set_ne (Ne.symm hne), List.getElem_set_self]
    · rw [hswap, List.getD_eq_getElem _ _ (by simpa using hb), List.getElem_set_self]
    · intro i hia hib
      rw [hswap]
      by_cases hi : i < perm.length
      · rw [List.getD_eq_getElem _ _ (by simpa using hi),
          List.getElem_set_ne (Ne.symm hib), List.getElem_set_ne (Ne.symm hia),
          List.getD_eq_getElem _ _ hi]
      · have h1 : perm.length ≤ i := Nat.le_of_not_lt hi
        rw [getD_len_le ((perm.set a.toNat (perm.getD b.toNat 0)).set b.toNat
            (perm.getD a.toNat 0)) i (by simpa using h1), getD_len_le perm i h1]
    · rw [hswap]; exact swap_set_perm perm a.toNat b.toNat ha hb
  · exact findOptimalAux_trace_perm score seq (List.range (tile_count * tile_count))
      max_steps 0 (initSliderState tile_count) (List.Perm.refl _) (by simp [initSliderState])

/-- Witness for C6 at concrete inputs (grid 2, swap sequence `[0, 1]`). -/
theorem slider_permutation_invariant_witness :
    (initSliderState 2).perm = List.range (2 * 2) ∧
    applySwapPair [0, 1, 2, 3] 9 0 = [0, 1, 2, 3] ∧
    (applySwapPair [0, 1, 2, 3] 0 1).Perm [0, 1, 2, 3] ∧
    (([1, 0, 2, 3], 0) : List Nat × Nat).1.Perm (List.range (2 * 2)) := by
  refine ⟨?_, ?_, ?_, ?_⟩
  · exact (slider_permutation_invariant (fun _ => 0) [0, 1] 50 2).1
  · exact (slider_permutation_invariant (fun _ => 0) [0, 1] 50 2).2.1
      [0, 1, 2, 3] 9 0 (by decide)
  · exact ((slider_permutation_invariant (fun _ => 0) [0, 1] 50 2).2.2.1
      [0, 1, 2, 3] 0 1 (by decide)).2.2.2.2
  · exact (slider_permutation_invariant (fun _ => 0) [0, 1] 50 2).2.2.2
      ([1, 0, 2, 3], 0) (by decide)

/-- The score of the identity (no-swap) render under the abstract score
function: in the code this is `calculate_seam_score` of the initial render,
which `find_optimal_step_count` never computes. -/
def constScore5 : List Nat → Nat := fun _ => 5

/-- Counterexample to C2 as stated: with a score function that is the
constant 5, every executed step's score equals (so never strictly improves
on) the seam score of the initial no-swap render, yet `solve` returns
`stepCount = 1`, not the degenerate zero-step result: `best_score` starts at
`float('inf')`, not at the initial render's score, so the first executed
step always becomes the best. -/
theorem slider_no_improvement_counterexample :
    constScore5 (List.range (DEFAULT_TILE_COUNT * DEFAULT_TILE_COUNT)) = 5 ∧
    (List.map Prod.snd (findOptimalAux constScore5 [0, 1] DEFAULT_MAX_STEPS 0
        (initSliderState DEFAULT_TILE_COUNT)).trace) = [5] ∧
    ([5].all fun s => decide ¬(s < 5)) = true ∧
    SliderCaptchaSolver.solve constScore5 ⟨some "x", some [9, 0, 1], "png"⟩
      = { stepCount := 1, selectedSwaps := [0, 1] } := by
  refine ⟨rfl, by decide, by decide, by decide⟩

/-- C2 (amended): a later step's score replaces the current best only if it
is strictly lower (on a tie the earlier, shorter candidate is kept), and the
degenerate zero-step result is returned exactly when no step executes at
all: when the processed swap sequence has fewer than two elements (or the
step bound is zero); if at least one step executes, `stepCount ≥ 1` is
returned even when no step's score improves on the initial no-swap
render. -/
theorem slider_best_update_policy (score : List Nat → Nat) (seq : List Int)
    (max_steps tile_count : Nat) :
    (∀ (step : Nat) (st : SliderState),
      ltInf (score (applySwapPair st.perm (seq.getD (2 * step) 0)
          (seq.getD (2 * step + 1) 0))) st.bestScore = false →
        (sliderStep score seq step st).bestStep = st.bestStep ∧
        (sliderStep score seq step st).bestSwaps = st.bestSwaps ∧
        (sliderStep score seq step st).bestScore = st.bestScore) ∧
    (∀ (step : Nat) (st : SliderState) (s : Nat), st.bestScore = some s →
      score (applySwapPair st.perm (seq.getD (2 * step) 0)
          (seq.getD (2 * step + 1) 0)) = s →
        (sliderStep score seq step st).bestStep = st.bestStep ∧
        (sliderStep score seq step st).bestSwaps = st.bestSwaps) ∧
    (seq.length < 2 →
      find_optimal_step_count score seq max_steps tile_count = (0, [])) ∧
    (2 ≤ seq.length → 1 ≤ max_steps →
      1 ≤ (find_optimal_step_count score seq max_steps tile_count).1) := by
  refine ⟨?_, ?_, ?_, ?_⟩
  · intro step st hlt
    unfold sliderStep
    dsimp only
    rw [hlt]
    exact ⟨rfl, rfl, rfl⟩
  · intro step st s hbest hs
    have hlt : ltInf (score (applySwapPair st.perm (seq.getD (2 * step) 0)
        (seq.getD (2 * step + 1) 0))) st.bestScore = false := by
      rw [hbest, hs]
      simp [ltInf]
    unfold sliderStep
    dsimp only
    rw [hlt]
    exact ⟨rfl, rfl⟩
  · intro hshort
    unfold find_optimal_step_count
    cases max_steps with
    | zero => rfl
    | succ fuel =>
      simp only [findOptimalAux]
      rw [if_neg (by omega)]
      rfl
  · intro hlong hpos
    unfold find_optimal_step_count
    dsimp only
    cases max_steps with
    | zero => omega
    | succ fuel =>
      simp only [findOptimalAux]
      rw [if_pos (by omega)]
      have hstep1 : (sliderStep score seq 0 (initSliderState tile_count)).bestStep = 1 ∧
          (sliderStep score seq 0 (initSliderState tile_count)).bestSwaps
            = seq.take ((0 + 1) * 2) := by
        unfold sliderStep initSliderState
        dsimp only
        rw [if_pos (by simp [ltInf])]
        exact ⟨rfl, rfl⟩
      obtain ⟨hb1, hb2⟩ := hstep1
      obtain ⟨ht1, _, _, _⟩ := findOptimalAux_invariant score seq fuel (0 + 1)
        (sliderStep score seq 0 (initSliderState tile_count))
        (by omega) (by rw [hb2, hb1]) (by rw [hb1]; omega)
      rw [hb1] at ht1
      exact ht1

/-- Witness for C2's amended theorem at concrete inputs. -/
theorem slider_best_update_policy_witness :
    (sliderStep (fun _ => 9) [0, 1] 0
        { perm := List.range 25, bestScore := some 3, bestStep := 1,
          bestSwaps := [0, 1], trace := [] }).bestStep = 1 ∧
    find_optimal_step_count (fun _ => 9) [0] 50 5 = (0, []) ∧
    1 ≤ (find_optimal_step_count (fun _ => 9) [0, 1] 50 5).1 := by
  refine ⟨?_, ?_, ?_⟩
  · exact ((slider_best_update_policy (fun _ => 9) [0, 1] 50 5).1 0
      { perm := List.range 25, bestScore := some 3, bestStep := 1,
        bestSwaps := [0, 1], trace := [] } (by decide)).1
  · exact (slider_best_update_policy (fun _ => 9) [0] 50 5).2.2.1 (by decide)
  · exact (slider_best_update_policy (fun _ => 9) [0, 1] 50 5).2.2.2
      (by decide) (by decide)

/-- C10: a swap pair with an out-of-range index is not skipped by the
replay: the iteration still consumes one step toward the bound (the loop
proceeds to the next step with one unit of fuel spent), the unchanged
permutation is rendered and scored for that step, and if that score is the
strict minimum so far the best becomes this step — the returned prefix of
length `2 × (step + 1)` includes the out-of-range pair and the step count
counts this step. -/
theorem slider_out_of_range_consumes_step (score : List Nat → Nat) (seq : List Int)
    (fuel step : Nat) (st : SliderState)
    (hlen : 2 * step + 1 < seq.length)
    (hout : inRangeSwap st.perm (seq.getD (2 * step) 0) (seq.getD (2 * step + 1) 0)
      = false) :
    findOptimalAux score seq (fuel + 1) step st
      = findOptimalAux score seq fuel (step + 1) (sliderStep score seq step st) ∧
    (sliderStep score seq step st).perm = st.perm ∧
    (sliderStep score seq step st).trace = st.trace ++ [(st.perm, score st.perm)] ∧
    (ltInf (score st.perm) st.bestScore = true →
      (sliderStep score seq step st).bestStep = step + 1 ∧
      (sliderStep score seq step st).bestSwaps = seq.take ((step + 1) * 2) ∧
      (seq.take ((step + 1) * 2)).getD (2 * step) 0 = seq.getD (2 * step) 0 ∧
      (seq.take ((step + 1) * 2)).getD (2 * step + 1) 0 = seq.getD (2 * step + 1) 0) := by
  have hnoop := applySwapPair_noop st.perm _ _ hout
  refine ⟨?_, ?_, ?_, ?_⟩
  · simp only [findOptimalAux]
    rw [if_pos hlen]
  · rw [sliderStep_perm_eq, hnoop]
  · rw [sliderStep_trace_eq, hnoop]
  · intro himp
    have hup : (sliderStep score seq step st).bestStep = step + 1 ∧
        (sliderStep score seq step st).bestSwaps = seq.take ((step + 1) * 2) := by
      unfold sliderStep
      dsimp only
      rw [hnoop, if_pos himp]
      exact ⟨rfl, rfl⟩
    refine ⟨hup.1, hup.2, ?_, ?_⟩
    · rw [List.getD_eq_getElem?_getD, List.getD_eq_getElem?_getD,
        List.getElem?_take_of_lt (by omega)]
    · rw [List.getD_eq_getElem?_getD, List.getD_eq_getElem?_getD,
        List.getElem?_take_of_lt (by omega)]

/-- Witness for C10: the pair `(99, 0)` is out of range for a grid-5
permutation, yet its step is consumed, scored on the unchanged identity
permutation, and selected as the best step. -/
theorem slider_out_of_range_consumes_step_witness :
    findOptimalAux (fun _ => 7) [99, 0, 5, 5] 3 0 (initSliderState 5)
      = findOptimalAux (fun _ => 7) [99, 0, 5, 5] 2 1
          (sliderStep (fun _ => 7) [99, 0, 5, 5] 0 (initSliderState 5)) ∧
    (sliderStep (fun _ => 7) [99, 0, 5, 5] 0 (initSliderState 5)).perm
      = (initSliderState 5).perm ∧
    (sliderStep (fun _ => 7) [99, 0, 5, 5] 0 (initSliderState 5)).bestStep = 0 + 1 ∧
    (sliderStep (fun _ => 7) [99, 0, 5, 5] 0 (initSliderState 5)).bestSwaps
      = [99, 0, 5, 5].take ((0 + 1) * 2) := by
  have h := slider_out_of_range_consumes_step (fun _ => 7) [99, 0, 5, 5] 2 0
    (initSliderState 5) (by decide) (by decide)
  exact ⟨h.1, h.2.1, (h.2.2.2 (by decide)).1, (h.2.2.2 (by decide)).2.1⟩

/-! ## TileGeometry: `SliderCaptchaSolver.compute_tile_layout` (lines 40-63)

```python
vertical_lines = [round((i * image_width) / tile_count) for i in range(tile_count + 1)]
horizontal_lines = [round((i * image_height) / tile_count) for i in range(tile_count + 1)]
tiles = []
for row in range(tile_count):
    for col in range(tile_count):
        x = vertical_lines[col]; y = horizontal_lines[row]
        width = vertical_lines[col + 1] - x; height = horizontal_lines[row + 1] - y
        tiles.append({'x': x, 'y': y, 'width': width, 'height': height})
```

Python's `round` is round-half-to-even; `pyRound num den` is round-half-to-even
of the exact rational `num / den` (the float division itself is external and
exact for the argument ranges of interest).  Tile widths/heights use natural
subtraction, which agrees with Python's integer subtraction because the cut
sequences are proved monotone. -/

/-- Round-half-to-even of `num / den` (Python `round`): the quotient when
the remainder is below half, the successor when above half, and the even
neighbour on an exact half. -/
def pyRound (num den : Nat) : Nat :=
  if 2 * (num % den) < den then num / den
  else if den < 2 * (num % den) then num / den + 1
  else if (num / den) % 2 = 0 then num / den else num / den + 1

structure ITile where
  x : Nat
  y : Nat
  width : Nat
  height : Nat
deriving DecidableEq

structure IGridLines where
  vertical : List Nat
  horizontal : List Nat
deriving DecidableEq

structure ITileInfo where
  tiles : List ITile
  grid : IGridLines
deriving DecidableEq

/-- The row-major `(row, col)` enumeration of the nested tile loops. -/
def tileCells (tile_count : Nat) : List (Nat × Nat) :=
  (List.range tile_count).flatMap fun row =>
    (List.range tile_count).map fun col => (row, col)

/-- The tile built for one `(row, col)` cell of the nested loops. -/
def mkTileOf (vertical horizontal : List Nat) (rc : Nat × Nat) : ITile :=
  let x := vertical.getD rc.2 0
  let y := horizontal.getD rc.1 0
  { x := x, y := y, width := vertical.getD (rc.2 + 1) 0 - x,
    height := horizontal.getD (rc.1 + 1) 0 - y }

/-- `SliderCaptchaSolver.compute_tile_layout`. -/
def compute_tile_layout (image_width image_height tile_count : Nat) : ITileInfo :=
  let vertical_lines := (List.range (tile_count + 1)).map
    fun i => pyRound (i * image_width) tile_count
  let horizontal_lines := (List.range (tile_count + 1)).map
    fun i => pyRound (i * image_height) tile_count
  let tiles := (tileCells tile_count).map (mkTileOf vertical_lines horizontal_lines)
  { tiles := tiles,
    grid := { vertical := vertical_lines, horizontal := horizontal_lines } }

/-- Point-in-tile test: `(px, py)` lies in the half-open rectangle of `t`. -/
def containsB (t : ITile) (px py : Nat) : Bool :=
  decide (t.x ≤ px ∧ px < t.x + t.width ∧ t.y ≤ py ∧ py < t.y + t.height)

theorem pyRound_zero (den : Nat) : pyRound 0 den = 0 := by
  unfold pyRound
  simp only [Nat.zero_div, Nat.zero_mod, Nat.mul_zero]
  split_ifs <;> omega

theorem pyRound_mul_den (w den : Nat) (hden : 0 < den) : pyRound (den * w) den = w := by
  unfold pyRound
  rw [Nat.mul_div_cancel_left w hden, Nat.mul_mod_right]
  split_ifs <;> omega

theorem pyRound_div_props (num den : Nat) :
    num / den ≤ pyRound num den ∧ pyRound num den ≤ num / den + 1 := by
  unfold pyRound
  split_ifs <;> omega

theorem pyRound_mono (den : Nat) (hden : 0 < den) {m n : Nat} (hmn : m ≤ n) :
    pyRound m den ≤ pyRound n den := by
  have hq : m / den ≤ n / den := Nat.div_le_div_right hmn
  rcases Nat.lt_or_ge (m / den) (n / den) with hlt | hge
  · calc pyRound m den ≤ m / den + 1 := (pyRound_div_props m den).2
      _ ≤ n / den := hlt
      _ ≤ pyRound n den := (pyRound_div_props n den).1
  · have heq : m / den = n / den := Nat.le_antisymm hq hge
    have hr : m % den ≤ n % den := by
      have h1 := Nat.div_add_mod m den
      have h2 := Nat.div_add_mod n den
      rw [heq] at h1
      omega
    unfold pyRound
    rw [heq]
    split_ifs <;> omega

theorem getD_map_range (f : Nat → Nat) (n i : Nat) (h : i < n) :
    ((List.range n).map f).getD i 0 = f i := by
  rw [List.getD_eq_getElem _ _ (by simpa using h)]
  simp

theorem axis_unique_cell (f : Nat → Nat) (n w x : Nat)
    (hmono : ∀ i j, i ≤ j → f i ≤ f j) (h0 : f 0 = 0) (hn : f n = w) (hx : x < w) :
    ∃ c, (c < n ∧ f c ≤ x ∧ x < f (c + 1)) ∧
      ∀ c', c' < n → f c' ≤ x → x < f (c' + 1) → c' = c := by
  classical
  have hP0 : f 0 ≤ x := by omega
  have hspec : f (Nat.findGreatest (fun c => f c ≤ x) n) ≤ x :=
    @Nat.findGreatest_spec 0 (fun c => f c ≤ x) _ n (Nat.zero_le n) hP0
  have hle : Nat.findGreatest (fun c => f c ≤ x) n ≤ n := Nat.findGreatest_le n
  have hltn : Nat.findGreatest (fun c => f c ≤ x) n < n := by
    rcases Nat.eq_or_lt_of_le hle with heq | hlt
    · exfalso; rw [heq, hn] at hspec; omega
    · exact hlt
  have hnext : x < f (Nat.findGreatest (fun c => f c ≤ x) n + 1) := by
    by_contra hcon
    have hnext' : f (Nat.findGreatest (fun c => f c ≤ x) n + 1) ≤ x := by omega
    have := @Nat.le_findGreatest (Nat.findGreatest (fun c => f c ≤ x) n + 1)
      (fun c => f c ≤ x) _ n (Nat.succ_le_of_lt hltn) hnext'
    omega
  refine ⟨Nat.findGreatest (fun c => f c ≤ x) n, ⟨hltn, hspec, hnext⟩, ?_⟩
  intro c' hc'n hc'le hc'lt
  have hup : c' ≤ Nat.findGreatest (fun c => f c ≤ x) n :=
    @Nat.le_findGreatest c' (fun c => f c ≤ x) _ n (by omega) hc'le
  rcases Nat.eq_or_lt_of_le hup with heq | hlt
  · exact heq
  · exfalso
    have hstep : f (c' + 1) ≤ f (Nat.findGreatest (fun c => f c ≤ x) n) :=
      hmono _ _ (by omega)
    omega

theorem countP_eq_one_of_unique {α : Type} (p : α → Bool) :
    ∀ (l : List α), l.Nodup → (∃ a, a ∈ l ∧ p a = true) →
      (∀ a b, a ∈ l → b ∈ l → p a = true → p b = true → a = b) →
      l.countP p = 1 := by
  intro l
  induction l with
  | nil =>
    intro _ hex _
    obtain ⟨a, ha, _⟩ := hex
    simp at ha
  | cons a t ih =>
    intro hnd hex huni
    obtain ⟨hat, htnd⟩ := List.nodup_cons.1 hnd
    by_cases hpa : p a = true
    · have hzero : t.countP p = 0 := by
        rw [List.countP_eq_zero]
        intro b hb hpb
        have hab : a = b := huni a b (List.mem_cons_self a t)
          (List.mem_cons_of_mem a hb) hpa hpb
        rw [hab] at hat
        exact hat hb
      rw [List.countP_cons, hzero, if_pos hpa]
    · obtain ⟨b, hb, hpb⟩ := hex
      have hbt : b ∈ t := by
        rcases List.mem_cons.1 hb with hba | hbt
        · rw [hba] at hpb; exact absurd hpb hpa
        · exact hbt
      have ht1 : t.countP p = 1 := ih htnd ⟨b, hbt, hpb⟩
        (fun a' b' ha' hb' hpa' hpb' =>
          huni a' b' (List.mem_cons_of_mem a ha') (List.mem_cons_of_mem a hb') hpa' hpb')
      rw [List.countP_cons, ht1, if_neg hpa]

theorem mem_tileCells (n : Nat) (rc : Nat × Nat) :
    rc ∈ tileCells n ↔ rc.1 < n ∧ rc.2 < n := by
  obtain ⟨r, c⟩ := rc
  unfold tileCells
  simp [List.mem_flatMap, List.mem_map, List.mem_range]

theorem tileCells_nodup (n : Nat) : (tileCells n).Nodup := by
  unfold tileCells
  rw [List.nodup_flatMap]
  constructor
  · intro r _
    exact (List.nodup_range n).map (fun c1 c2 hc => (Prod.mk.inj hc).2)
  · apply (List.pairwise_lt_range n).imp
    intro r1 r2 hlt
    intro x hx1 hx2
    simp only [List.mem_map, List.mem_range] at hx1 hx2
    obtain ⟨c1, _, hc1⟩ := hx1
    obtain ⟨c2, _, hc2⟩ := hx2
    rw [← hc1] at hc2
    have := (Prod.mk.inj hc2).1
    omega

theorem containsB_cell (w h tc : Nat) (htc : 1 ≤ tc) (row col px py : Nat)
    (hrow : row < tc) (hcol : col < tc) :
    (containsB (mkTileOf
        ((List.range (tc + 1)).map fun i => pyRound (i * w) tc)
        ((List.range (tc + 1)).map fun i => pyRound (i * h) tc) (row, col)) px py = true)
    ↔ (pyRound (col * w) tc ≤ px ∧ px < pyRound ((col + 1) * w) tc ∧
       pyRound (row * h) tc ≤ py ∧ py < pyRound ((row + 1) * h) tc) := by
  unfold containsB mkTileOf
  dsimp only
  rw [getD_map_range _ _ _ (by omega), getD_map_range _ _ _ (by omega),
    getD_map_range _ _ _ (by omega), getD_map_range _ _ _ (by omega),
    decide_eq_true_eq]
  have hmx : pyRound (col * w) tc ≤ pyRound ((col + 1) * w) tc :=
    pyRound_mono tc htc (Nat.mul_le_mul_right w (by omega))
  have hmy : pyRound (row * h) tc ≤ pyRound ((row + 1) * h) tc :=
    pyRound_mono tc htc (Nat.mul_le_mul_right h (by omega))
  constructor
  · rintro ⟨h1, h2, h3, h4⟩
    exact ⟨h1, by omega, h3, by omega⟩
  · rintro ⟨h1, h2, h3, h4⟩
    exact ⟨h1, by omega, h3, by omega⟩

/-- C4: the cut sequences have length `gridSize + 1`, are non-decreasing,
start at `0` and end at the image extent, there are `gridSize²` row-major
tiles, and every point of the `width × height` rectangle lies in exactly one
tile (no gaps, no overlaps, full coverage); for `width = height = 10`,
`gridSize = 2` the cuts are `[0, 5, 10]` on both axes. -/
theorem compute_tile_layout_partition (w h tc : Nat)
    (hw : 1 ≤ w) (hh : 1 ≤ h) (htc : 1 ≤ tc) :
    (compute_tile_layout w h tc).grid.vertical.length = tc + 1 ∧
    (compute_tile_layout w h tc).grid.horizontal.length = tc + 1 ∧
    (compute_tile_layout w h tc).grid.vertical.Pairwise (· ≤ ·) ∧
    (compute_tile_layout w h tc).grid.horizontal.Pairwise (· ≤ ·) ∧
    (compute_tile_layout w h tc).grid.vertical.getD 0 0 = 0 ∧
    (compute_tile_layout w h tc).grid.vertical.getD tc 0 = w ∧
    (compute_tile_layout w h tc).grid.horizontal.getD 0 0 = 0 ∧
    (compute_tile_layout w h tc).grid.horizontal.getD tc 0 = h ∧
    (compute_tile_layout w h tc).tiles.length = tc * tc ∧
    (∀ px py, px < w → py < h →
      (compute_tile_layout w h tc).tiles.countP (fun t => containsB t px py) = 1) ∧
    (compute_tile_layout 10 10 2).grid.vertical = [0, 5, 10] ∧
    (compute_tile_layout 10 10 2).grid.horizontal = [0, 5, 10] := by
  have hpair : ∀ e : Nat, ((List.range (tc + 1)).map
      fun i => pyRound (i * e) tc).Pairwise (· ≤ ·) := by
    intro e
    rw [List.pairwise_map]
    exact (List.pairwise_lt_range (tc + 1)).imp
      (fun hab => pyRound_mono tc htc (Nat.mul_le_mul_right e (Nat.le_of_lt hab)))
  have hfirst : ∀ e : Nat, ((List.range (tc + 1)).map
      fun i => pyRound (i * e) tc).getD 0 0 = 0 := by
    intro e
    rw [getD_map_range _ _ _ (by omega), Nat.zero_mul]
    exact pyRound_zero tc
  have hlast : ∀ e : Nat, ((List.range (tc + 1)).map
      fun i => pyRound (i * e) tc).getD tc 0 = e := by
    intro e
    rw [getD_map_range _ _ _ (by omega)]
    exact pyRound_mul_den e tc htc
  refine ⟨by simp [compute_tile_layout], by simp [compute_tile_layout],
    hpair w, hpair h, hfirst w, hlast w, hfirst h, hlast h, ?_, ?_, by decide, by decide⟩
  · show ((tileCells tc).map _).length = tc * tc
    rw [List.length_map]
    unfold tileCells
    rw [List.length_flatMap]
    rw [show (List.length ∘ fun row => (List.range tc).map fun col => (row, col))
        = fun _ => tc from funext fun r => by simp]
    rw [List.map_const', List.sum_const_nat, List.length_range]
  · intro px py hpx hpy
    obtain ⟨cx, ⟨hcx1, hcx2, hcx3⟩, hcxu⟩ := axis_unique_cell
      (fun i => pyRound (i * w) tc) tc w px
      (fun i j hij => pyRound_mono tc htc (Nat.mul_le_mul_right w hij))
      (by show pyRound (0 * w) tc = 0; rw [Nat.zero_mul]; exact pyRound_zero tc)
      (pyRound_mul_den w tc htc) hpx
    obtain ⟨cy, ⟨hcy1, hcy2, hcy3⟩, hcyu⟩ := axis_unique_cell
      (fun i => pyRound (i * h) tc) tc h py
      (fun i j hij => pyRound_mono tc htc (Nat.mul_le_mul_right h hij))
      (by show pyRound (0 * h) tc = 0; rw [Nat.zero_mul]; exact pyRound_zero tc)
      (pyRound_mul_den h tc htc) hpy
    show ((tileCells tc).map _).countP _ = 1
    rw [List.countP_map]
    apply countP_eq_one_of_unique _ _ (tileCells_nodup tc)
    · refine ⟨(cy, cx), (mem_tileCells tc (cy, cx)).2 ⟨hcy1, hcx1⟩, ?_⟩
      show containsB (mkTileOf _ _ (cy, cx)) px py = true
      rw [containsB_cell w h tc htc cy cx px py hcy1 hcx1]
      exact ⟨hcx2, hcx3, hcy2, hcy3⟩
    · rintro ⟨ar, ac⟩ ⟨br, bc⟩ ha hb hpa hpb
      obtain ⟨har, hac⟩ := (mem_tileCells tc (ar, ac)).1 ha
      obtain ⟨hbr, hbc⟩ := (mem_tileCells tc (br, bc)).1 hb
      have hfa := (containsB_cell w h tc htc ar ac px py har hac).1 hpa
      have hfb := (containsB_cell w h tc htc br bc px py hbr hbc).1 hpb
      have hca : ac = cx := hcxu ac hac hfa.1 hfa.2.1
      have hcb : bc = cx := hcxu bc hbc hfb.1 hfb.2.1
      have hra : ar = cy := hcyu ar har hfa.2.2.1 hfa.2.2.2
      have hrb : br = cy := hcyu br hbr hfb.2.2.1 hfb.2.2.2
      rw [hca, hcb, hra, hrb]

/-- Witness for C4 at `width = height = 10`, `gridSize = 2`, point `(7, 3)`. -/
theorem compute_tile_layout_partition_witness :
    (compute_tile_layout 10 10 2).grid.vertical = [0, 5, 10] ∧
    (compute_tile_layout 10 10 2).tiles.countP (fun t => containsB t 7 3) = 1 := by
  refine ⟨?_, ?_⟩
  · exact (compute_tile_layout_partition 10 10 2 (by decide) (by decide)
      (by decide)).2.2.2.2.2.2.2.2.2.2.1
  · exact (compute_tile_layout_partition 10 10 2 (by decide) (by decide)
      (by decide)).2.2.2.2.2.2.2.2.2.1 7 3 (by decide) (by decide)

/-! ## API.call response handling (`api.py` lines 217-235)

```python
if "error" in data:
    raise APIError(data["error"], method)
if "response" in data:
    resp = data["response"]
    if isinstance(resp, dict) and resp.get("status") and resp["status"] != "OK":
        raise APIError(error_payload, method)
    return resp
return data
```

The decoded JSON envelope is modelled by `JValue`, a JSON object being an
association list (decoded JSON objects carry each key once).  Python
truthiness of `resp.get("status")` is `JValue.truthy`; the comparison
`resp["status"] != "OK"` is true exactly when the value is not the string
`"OK"` (`JValue.isStrOK`).  The transport, URL and parameter serialization
are external; only the branch on the decoded envelope is embedded. -/

inductive JValue where
  | null
  | boolean (b : Bool)
  | num (n : Int)
  | str (s : String)
  | arr (xs : List JValue)
  | obj (fields : List (String × JValue))

/-- Python truthiness of a JSON value. -/
def JValue.truthy : JValue → Bool
  | .null => false
  | .boolean b => b
  | .num n => n != 0
  | .str s => s != ""
  | .arr xs => !xs.isEmpty
  | .obj fs => !fs.isEmpty

/-- Whether a JSON value is precisely the string `"OK"`. -/
def JValue.isStrOK : JValue → Bool
  | .str s => s == "OK"
  | _ => false

/-- Outcome of `API.call` on a decoded envelope: the two `raise APIError`
paths and the return path. -/
inductive CallResult where
  | apiError (error : JValue)
  | badStatus (status : JValue)
  | success (value : JValue)

def CallResult.isFailure : CallResult → Bool
  | .success _ => false
  | _ => true

/-- The envelope branch of `API.call`. -/
def API.call_outcome (data : List (String × JValue)) : CallResult :=
  match List.lookup "error" data with
  | some e => .apiError e
  | none =>
    match List.lookup "response" data with
    | some resp =>
      match resp with
      | .obj fields =>
        match List.lookup "status" fields with
        | some st =>
          if st.truthy && !st.isStrOK then .badStatus st else .success resp
        | none => .success resp
      | _ => .success resp
    | none => .success (.obj data)

/-- Counterexample to C7 as stated: the envelope
`{"response": {"status": ""}}` has no top-level `error` key and its
`response` value is an object whose `status` field is not `"OK"`, yet the
call succeeds (returns the response value) because `resp.get("status")` is
falsy for the empty string. -/
theorem api_call_status_falsy_counterexample :
    List.lookup "status" [("status", JValue.str "")] = some (JValue.str "") ∧
    (JValue.str "" = JValue.str "OK" → False) ∧
    API.call_outcome [("response", JValue.obj [("status", JValue.str "")])]
      = CallResult.success (JValue.obj [("status", JValue.str "")]) := by
  refine ⟨rfl, ?_, rfl⟩
  intro hcontra
  have : ("" : String) = "OK" := JValue.str.inj hcontra
  exact absurd this (by decide)

/-- C7 (amended): `API.call` fails iff the envelope has a top-level `error`
key, or its `response` value is an object carrying a *truthy* `status`
field that is not the string `"OK"` (a falsy status — empty string, null,
`0`, `false`, empty containers — is not treated as failure);	on success it
returns the `response` value when a `response` key is present, and the
whole envelope when neither key is present. -/
theorem api_call_failure_characterization (data : List (String × JValue)) :
    ((API.call_outcome data).isFailure = true ↔
      ((∃ e, List.lookup "error" data = some e) ∨
       (∃ fields st, List.lookup "response" data = some (JValue.obj fields) ∧
         List.lookup "status" fields = some st ∧
         st.truthy = true ∧ st.isStrOK = false))) ∧
    (List.lookup "error" data = none →
      ∀ resp, List.lookup "response" data = some resp →
        (API.call_outcome data).isFailure = false →
        API.call_outcome data = .success resp) ∧
    (List.lookup "error" data = none → List.lookup "response" data = none →
      API.call_outcome data = .success (.obj data)) := by
  rcases herr : List.lookup "error" data with _ | e
  · rcases hresp : List.lookup "response" data with _ | resp
    · have hout : API.call_outcome data = .success (.obj data) := by
        unfold API.call_outcome
        simp only [herr, hresp]
      refine ⟨?_, ?_, ?_⟩
      · rw [hout]
        simp [CallResult.isFailure]
      · intro _ r hr
        simp at hr
      · intro _ _
        exact hout
    · rcases resp with _ | b | n | s | xs | fields
      case obj =>
        rcases hst : List.lookup "status" fields with _ | st
        · have hout : API.call_outcome data = .success (.obj fields) := by
            unfold API.call_outcome
            simp only [herr, hresp, hst]
          refine ⟨?_, ?_, ?_⟩
          · rw [hout]
            simp only [CallResult.isFailure, Bool.false_eq_true, false_iff]
            rintro (⟨e, he⟩ | ⟨f2, st2, hf2, hst2, _, _⟩)
            · exact absurd he (by simp)
            · have : fields = f2 := JValue.obj.inj (Option.some.inj hf2)
              rw [← this, hst] at hst2
              exact absurd hst2 (by simp)
          · intro _ r hr _
            rw [Option.some.inj hr] at hout
            exact hout
          · intro _ hr
            exact absurd hr (by simp)
        · by_cases hbad : (st.truthy && !st.isStrOK) = true
          · have hout : API.call_outcome data = .badStatus st := by
              unfold API.call_outcome
              simp only [herr, hresp, hst, hbad, if_pos]
            obtain ⟨htr, hnok⟩ : st.truthy = true ∧ st.isStrOK = false := by
              simpa using hbad
            refine ⟨?_, ?_, ?_⟩
            · rw [hout]
              simp only [CallResult.isFailure, true_iff]
              exact Or.inr ⟨fields, st, rfl, hst, htr, hnok⟩
            · intro _ r hr hfail
              rw [hout] at hfail
              exact absurd hfail (by simp [CallResult.isFailure])
            · intro _ hr
              exact absurd hr (by simp)
          · have hout : API.call_outcome data = .success (.obj fields) := by
              unfold API.call_outcome
              simp only [herr, hresp, hst]
              rw [if_neg hbad]
            refine ⟨?_, ?_, ?_⟩
            · rw [hout]
              simp only [CallResult.isFailure, Bool.false_eq_true, false_iff]
              rintro (⟨e, he⟩ | ⟨f2, st2, hf2, hst2, htr2, hok2⟩)
              · exact absurd he (by simp)
              · have : fields = f2 := JValue.obj.inj (Option.some.inj hf2)
                rw [← this, hst] at hst2
                have hstq : st = st2 := Option.some.inj hst2
                rw [← hstq] at htr2 hok2
                rw [htr2, hok2] at hbad
                simp at hbad
            · intro _ r hr _
              rw [Option.some.inj hr] at hout
              exact hout
            · intro _ hr
              exact absurd hr (by simp)
      case null =>
        have hout : API.call_outcome data = .success .null := by
          unfold API.call_outcome
          simp only [herr, hresp]
        refine ⟨?_, ?_, ?_⟩
        · rw [hout]
          simp only [CallResult.isFailure, Bool.false_eq_true, false_iff]
          rintro (⟨e, he⟩ | ⟨f2, st2, hf2, _, _, _⟩)
          · exact absurd he (by simp)
          · exact absurd (Option.some.inj hf2) (by simp)
        · intro _ r hr _
          rw [Option.some.inj hr] at hout
          exact hout
        · intro _ hr
          exact absurd hr (by simp)
      case boolean =>
        have hout : API.call_outcome data = .success (.boolean b) := by
          unfold API.call_outcome
          simp only [herr, hresp]
        refine ⟨?_, ?_, ?_⟩
        · rw [hout]
          simp only [CallResult.isFailure, Bool.false_eq_true, false_iff]
          rintro (⟨e, he⟩ | ⟨f2, st2, hf2, _, _, _⟩)
          · exact absurd he (by simp)
          · exact absurd (Option.some.inj hf2) (by simp)
        · intro _ r hr _
          rw [Option.some.inj hr] at hout
          exact hout
        · intro _ hr
          exact absurd hr (by simp)
      case num =>
        have hout : API.call_outcome data = .success (.num n) := by
          unfold API.call_outcome
          simp only [herr, hresp]
        refine ⟨?_, ?_, ?_⟩
        · rw [hout]
          simp only [CallResult.isFailure, Bool.false_eq_true, false_iff]
          rintro (⟨e, he⟩ | ⟨f2, st2, hf2, _, _, _⟩)
          · exact absurd he (by simp)
          · exact absurd (Option.some.inj hf2) (by simp)
        · intro _ r hr _
          rw [Option.some.inj hr] at hout
          exact hout
        · intro _ hr
          exact absurd hr (by simp)
      case str =>
        have hout : API.call_outcome data = .success (.str s) := by
          unfold API.call_outcome
          simp only [herr, hresp]
        refine ⟨?_, ?_, ?_⟩
        · rw [hout]
          simp only [CallResult.isFailure, Bool.false_eq_true, false_iff]
          rintro (⟨e, he⟩ | ⟨f2, st2, hf2, _, _, _⟩)
          · exact absurd he (by simp)
          · exact absurd (Option.some.inj hf2) (by simp)
        · intro _ r hr _
          rw [Option.some.inj hr] at hout
          exact hout
        · intro _ hr
          exact absurd hr (by simp)
      case arr =>
        have hout : API.call_outcome data = .success (.arr xs) := by
          unfold API.call_outcome
          simp only [herr, hresp]
        refine ⟨?_, ?_, ?_⟩
        · rw [hout]
          simp only [CallResult.isFailure, Bool.false_eq_true, false_iff]
          rintro (⟨e, he⟩ | ⟨f2, st2, hf2, _, _, _⟩)
          · exact absurd he (by simp)
          · exact absurd (Option.some.inj hf2) (by simp)
        · intro _ r hr _
          rw [Option.some.inj hr] at hout
          exact hout
        · intro _ hr
          exact absurd hr (by simp)
  · have hout : API.call_outcome data = .apiError e := by
      unfold API.call_outcome
      simp only [herr]
    refine ⟨?_, ?_, ?_⟩
    · rw [hout]
      simp only [CallResult.isFailure, true_iff]
      exact Or.inl ⟨e, rfl⟩
    · intro hcontra
      exact absurd hcontra (by simp)
    · intro hcontra
      exact absurd hcontra (by simp)


/-- Witness for C7's amended theorem at concrete envelopes. -/
theorem api_call_failure_characterization_witness :
    (API.call_outcome [("response", JValue.obj [("status", JValue.str "FAIL")])]).isFailure
      = true ∧
    API.call_outcome [("x", JValue.num 1)]
      = CallResult.success (JValue.obj [("x", JValue.num 1)]) := by
  refine ⟨?_, ?_⟩
  · exact (api_call_failure_characterization
      [("response", JValue.obj [("status", JValue.str "FAIL")])]).1.2
      (Or.inr ⟨[("status", JValue.str "FAIL")], JValue.str "FAIL", rfl, rfl, rfl, rfl⟩)
  · exact (api_call_failure_characterization [("x", JValue.num 1)]).2.2 rfl rfl

/-! ## CheckboxSolver: `checkbox_solver.py`

`generate_mouse_trace` (lines 35-77) computes
`total_steps = floor(duration_ms / interval_ms)` and appends exactly one
point per `step in range(total_steps)`; the point coordinates mix float
easing with `random.random()` jitter (external randomness and floating
point), so the per-step point construction is abstracted as
`mkPoint : Nat → ISensorPoint`.  `solve` (lines 13-33) truncates the trace
to `floor(900 * 1024 / 20)` points and assigns channels into a dict, whose
insertion-order semantics `dictInsert` mirrors. -/

structure ISensorPoint where
  x : Int
  y : Int
deriving DecidableEq

/-- `CheckboxCaptchaSolver.generate_mouse_trace`: one point per step of
`range(durationMs / intervalMs)`. -/
def generate_mouse_trace (mkPoint : Nat → ISensorPoint)
    (intervalMs durationMs : Nat) : List ISensorPoint :=
  (List.range (durationMs / intervalMs)).map mkPoint

/-- Python dict assignment `d[k] = v`: update in place if the key exists,
else append (insertion order preserved). -/
def dictInsert {α : Type} : List (String × α) → String → α → List (String × α)
  | [], k, v => [(k, v)]
  | (k', v') :: rest, k, v =>
    if k' = k then (k, v) :: rest else (k', v') :: dictInsert rest k v

/-- `CheckboxCaptchaSolver.solve`. -/
def CheckboxCaptchaSolver.solve (mkPoint : Nat → ISensorPoint)
    (intervalMs durationMs : Nat) (sensors_list : List String) :
    List (String × List ISensorPoint) :=
  let cursor := generate_mouse_trace mkPoint intervalMs durationMs
  let max_bytes := 900 * 1024
  let avg_bytes_per_point := 20
  let max_points := max_bytes / avg_bytes_per_point
  let cursor := if max_points < cursor.length then cursor.take max_points else cursor
  sensors_list.foldl
    (fun sensors sensor =>
      dictInsert sensors sensor (if sensor = "cursor" then cursor else [])) []

theorem lookup_dictInsert {α : Type} (d : List (String × α)) (k c : String) (v : α) :
    List.lookup c (dictInsert d k v) = if c = k then some v else List.lookup c d := by
  induction d with
  | nil =>
    by_cases h : c = k
    · subst h
      simp [dictInsert, List.lookup]
    · have hb : (c == k) = false := by simpa using h
      simp [dictInsert, List.lookup, hb, h]
  | cons kv rest ih =>
    obtain ⟨k', v'⟩ := kv
    by_cases hk : k' = k
    · subst hk
      by_cases h : c = k'
      · subst h
        simp [dictInsert, List.lookup]
      · have hb : (c == k') = false := by simpa using h
        simp [dictInsert, List.lookup, hb, h]
    · by_cases h : c = k'
      · subst h
        simp [dictInsert, List.lookup, if_neg hk, hk, fun hc : c = k => hk hc]
      · have hb : (c == k') = false := by simpa using h
        simp [dictInsert, List.lookup, if_neg hk, hb, ih]

theorem lookup_foldl_insert (f : String → List ISensorPoint) (l : List String) :
    ∀ (d : List (String × List ISensorPoint)) (c : String),
      List.lookup c (l.foldl (fun acc s => dictInsert acc s (f s)) d)
        = if c ∈ l then some (f c) else List.lookup c d := by
  induction l with
  | nil => intro d c; simp
  | cons s t ih =>
    intro d c
    simp only [List.foldl_cons]
    rw [ih]
    by_cases hct : c ∈ t
    · rw [if_pos hct, if_pos (List.mem_cons_of_mem s hct)]
    · rw [if_neg hct, lookup_dictInsert]
      by_cases hcs : c = s
      · rw [if_pos hcs, if_pos (by rw [hcs]; exact List.mem_cons_self s t), hcs]
      · rw [if_neg hcs, if_neg (by
          intro hmem
          rcases List.mem_cons.1 hmem with h | h
          · exact hcs h
          · exact hct h)]

/-- C9: the mapping returned by `CheckboxCaptchaSolver.solve` has an entry
for exactly the requested channels; `"cursor"` maps to the generated trace
truncated to its first `floor(900·1024/20) = 46080` points, every other
requested channel maps to the empty sequence, and when at least one step is
generated the `"cursor"` entry is non-empty. -/
theorem checkbox_solve_channels (mkPoint : Nat → ISensorPoint)
    (intervalMs durationMs : Nat) (sensors_list : List String) (c : String) :
    (List.lookup c (CheckboxCaptchaSolver.solve mkPoint intervalMs durationMs sensors_list)
      = if c ∈ sensors_list then
          some (if c = "cursor"
            then (generate_mouse_trace mkPoint intervalMs durationMs).take (900 * 1024 / 20)
            else [])
        else none) ∧
    (1 ≤ durationMs / intervalMs → "cursor" ∈ sensors_list →
      List.lookup "cursor"
          (CheckboxCaptchaSolver.solve mkPoint intervalMs durationMs sensors_list)
        = some ((generate_mouse_trace mkPoint intervalMs durationMs).take (900 * 1024 / 20)) ∧
      (generate_mouse_trace mkPoint intervalMs durationMs).take (900 * 1024 / 20) ≠ []) := by
  have htrunc : (if 900 * 1024 / 20
        < (generate_mouse_trace mkPoint intervalMs durationMs).length
      then (generate_mouse_trace mkPoint intervalMs durationMs).take (900 * 1024 / 20)
      else generate_mouse_trace mkPoint intervalMs durationMs)
      = (generate_mouse_trace mkPoint intervalMs durationMs).take (900 * 1024 / 20) := by
    split_ifs with hlt
    · rfl
    · exact (List.take_of_length_le (by omega)).symm
  have hmain : ∀ ch, List.lookup ch
      (CheckboxCaptchaSolver.solve mkPoint intervalMs durationMs sensors_list)
      = if ch ∈ sensors_list then
          some (if ch = "cursor"
            then (generate_mouse_trace mkPoint intervalMs durationMs).take (900 * 1024 / 20)
            else [])
        else none := by
    intro ch
    unfold CheckboxCaptchaSolver.solve
    dsimp only
    rw [htrunc]
    rw [lookup_foldl_insert
      (fun s => if s = "cursor"
        then (generate_mouse_trace mkPoint intervalMs durationMs).take (900 * 1024 / 20)
        else []) sensors_list [] ch]
    split_ifs <;> rfl
  refine ⟨hmain c, ?_⟩
  intro hsteps hcur
  have hlook := hmain "cursor"
  rw [if_pos hcur, if_pos rfl] at hlook
  refine ⟨hlook, ?_⟩
  intro hcontra
  have hlen : ((generate_mouse_trace mkPoint intervalMs durationMs).take
      (900 * 1024 / 20)).length = 0 := by rw [hcontra]; rfl
  rw [List.length_take] at hlen
  have hglen : (generate_mouse_trace mkPoint intervalMs durationMs).length
      = durationMs / intervalMs := by
    unfold generate_mouse_trace
    rw [List.length_map, List.length_range]
  omega

/-- Witness for C9: requested channels `{"cursor", "taps"}` with a 2000 ms
duration at 500 ms intervals: both keys are present, `"taps"` is empty and
`"cursor"` is non-empty. -/
theorem checkbox_solve_channels_witness :
    List.lookup "taps" (CheckboxCaptchaSolver.solve (fun i => ⟨Int.ofNat i, 0⟩) 500 2000
      ["cursor", "taps"]) = some [] ∧
    List.lookup "cursor" (CheckboxCaptchaSolver.solve (fun i => ⟨Int.ofNat i, 0⟩) 500 2000
      ["cursor", "taps"])
      = some ((generate_mouse_trace (fun i => ⟨Int.ofNat i, 0⟩) 500 2000).take
          (900 * 1024 / 20)) ∧
    (generate_mouse_trace (fun i => ⟨Int.ofNat i, 0⟩) 500 2000).take (900 * 1024 / 20)
      ≠ [] := by
  refine ⟨?_, ?_, ?_⟩
  · have := (checkbox_solve_channels (fun i => ⟨Int.ofNat i, 0⟩) 500 2000
      ["cursor", "taps"] "taps").1
    simpa using this
  · exact ((checkbox_solve_channels (fun i => ⟨Int.ofNat i, 0⟩) 500 2000
      ["cursor", "taps"] "cursor").2 (by decide) (by decide)).1
  · exact ((checkbox_solve_channels (fun i => ⟨Int.ofNat i, 0⟩) 500 2000
      ["cursor", "taps"] "cursor").2 (by decide) (by decide)).2

/-! ## ChallengeOrchestrator: `CaptchaSolver.solve` (`__init__.py` lines 79-124)

```python
initial = await self._api.get_initial_params(redirect_uri)
captcha_type = initial["data"].get("show_captcha_type")
if captcha_type not in ("slider", "checkbox"):
    raise VKCaptchaSolverError(f"Unknown captcha type: {captcha_type}")
settings = await self._api.get_settings(initial["data"])
pow_hash = await loop.run_in_executor(None, self._generate_pow, ...)
check_params = self._build_check_params(initial, pow_hash)
if captcha_type == "checkbox": ... else: ...
response = await self._api.check(check_params)
await self._api.end_session(initial["data"])
return response["success_token"]
```

Transport calls and solver invocations are modelled as a recorded action
trace over stubbed results; transport-level failures are external.  The
`.get("show_captcha_type")` may be absent (`none`); Python interpolates
`None` into the error message as the string `"None"`. -/

inductive SolveAction where
  | getInitialParams
  | getSettings
  | generatePow
  | getContent
  | componentDone
  | checkboxSolve
  | sliderSolve
  | check
  | endSession
deriving DecidableEq

/-- Stubbed remote results for one orchestrator run. -/
structure OrchestratorStub where
  showCaptchaType : Option String
  sensorsList : List String
  successToken : String

/-- Python f-string rendering of `initial["data"].get("show_captcha_type")`. -/
def pyShowOpt : Option String → String
  | some s => s
  | none => "None"

/-- `CaptchaSolver.solve`: the action trace performed and the outcome. -/
def CaptchaSolver.solve (stub : OrchestratorStub) :
    List SolveAction × Except String String :=
  let captcha_type := stub.showCaptchaType
  if captcha_type ≠ some "slider" ∧ captcha_type ≠ some "checkbox" then
    ([SolveAction.getInitialParams],
     Except.error ("Unknown captcha type: " ++ pyShowOpt captcha_type))
  else
    let dispatch :=
      if captcha_type = some "checkbox" then
        [SolveAction.componentDone, SolveAction.checkboxSolve]
      else
        [SolveAction.getContent, SolveAction.componentDone, SolveAction.sliderSolve]
    ([SolveAction.getInitialParams, SolveAction.getSettings, SolveAction.generatePow]
       ++ dispatch ++ [SolveAction.check, SolveAction.endSession],
     Except.ok stub.successToken)

/-- C8: an unrecognized challenge variant makes `solve` raise an error
naming the variant right after fetching the challenge parameters — no
proof-of-work, no solver dispatch, no content fetch and no submission is
performed. -/
theorem solve_unknown_variant (stub : OrchestratorStub)
    (h1 : stub.showCaptchaType ≠ some "slider")
    (h2 : stub.showCaptchaType ≠ some "checkbox") :
    CaptchaSolver.solve stub
      = ([SolveAction.getInitialParams],
         Except.error ("Unknown captcha type: " ++ pyShowOpt stub.showCaptchaType)) ∧
    SolveAction.generatePow ∉ (CaptchaSolver.solve stub).1 ∧
    SolveAction.checkboxSolve ∉ (CaptchaSolver.solve stub).1 ∧
    SolveAction.sliderSolve ∉ (CaptchaSolver.solve stub).1 ∧
    SolveAction.getContent ∉ (CaptchaSolver.solve stub).1 ∧
    SolveAction.check ∉ (CaptchaSolver.solve stub).1 := by
  have hout : CaptchaSolver.solve stub
      = ([SolveAction.getInitialParams],
         Except.error ("Unknown captcha type: " ++ pyShowOpt stub.showCaptchaType)) := by
    unfold CaptchaSolver.solve
    rw [if_pos ⟨h1, h2⟩]
  refine ⟨hout, ?_, ?_, ?_, ?_, ?_⟩ <;> rw [hout] <;> simp

/-- Witness for C8 with the unrecognized variant string `"foo"`. -/
theorem solve_unknown_variant_witness :
    CaptchaSolver.solve ⟨some "foo", [], "tok"⟩
      = ([SolveAction.getInitialParams], Except.error "Unknown captcha type: foo") ∧
    SolveAction.generatePow ∉ (CaptchaSolver.solve ⟨some "foo", [], "tok"⟩).1 := by
  have h := solve_unknown_variant ⟨some "foo", [], "tok"⟩ (by simp) (by simp)
  exact ⟨h.1, h.2.1⟩

end VKCaptcha
